import Mathlib

/-!
Shallow embedding of the GmlSt `transform-map-for-cpu` pass
(`gml_st/transforms/cpu_tiling/transform_map_for_cpu.cc`).

The program graph is modelled as a list of operations indexed by `Nat` ids.
Each operation records its kind, its transient labels, the list of owners of
the uses of its results (`users`, as iterated by `getUsers`), and the id of
its parent operation.  The external collaborators of the pattern — the
tiling-and-fusion driver, the peeling driver, the remainder scalarization
driver, the auxiliary forall-dimension-collapse pattern and the greedy
fixed-point rewriter — live outside this translation unit; they are modelled
from the spec as parameters (a `Drivers` record) and a fuel-indexed worklist.
-/

namespace GmlSt

/-- The transient labels used by this pass family: `transformed`
(rewrite bookkeeping) and `perfectly-tiled-loop` (marks the main tiled
loop).  The label set is closed, so it is modelled as an enumeration. -/
inductive Label where
  | transformed
  | perfectlyTiledLoop
  deriving DecidableEq, Repr

/-- `kTransformedLabel` from `gml_st/transforms/transforms.h`. -/
def kTransformedLabel : Label := Label.transformed

/-- `kPerfectlyTiledLoopLabel` from `gml_st/transforms/transforms.h`. -/
def kPerfectlyTiledLoopLabel : Label := Label.perfectlyTiledLoop

/-- Operation kinds distinguished by the pass: `linalg.map` (with its number
of loop dimensions, i.e. its rank), the fusible producer kinds
(`linalg.broadcast`, `linalg.fill`, `tensor.collapse_shape`,
`tensor.expand_shape` — reshapes carry the result of the external
`isDegenerateReshapeOp` structural check as a field), the loop kinds tested
by the nesting guard (`scf.forall`, `scf.for`), the enclosing `func.func`,
and anything else. -/
inductive OpKind where
  | map (numLoops : Nat)
  | broadcast
  | fill
  | collapseShape (degenerate : Bool)
  | expandShape (degenerate : Bool)
  | scfForall
  | scfFor
  | func
  | other
  deriving DecidableEq, Repr

/-- One operation of the program graph. -/
structure Op where
  kind : OpKind
  labels : List Label
  users : List Nat
  parent : Nat
  deriving DecidableEq, Repr

/-- Lookup fallback for out-of-range ids. -/
def defaultOp : Op := ⟨OpKind.other, [], [], 0⟩

/-- A function-scoped program graph: operations indexed by their position. -/
structure Graph where
  ops : List Op
  deriving DecidableEq, Repr

def Graph.get (g : Graph) (i : Nat) : Op := g.ops.getD i defaultOp

/-- `hasLabel(op, label)` from `gml_st/transforms/transforms.h`. -/
def Op.hasLabel (o : Op) (l : Label) : Bool := decide (l ∈ o.labels)

def hasLabel (g : Graph) (i : Nat) (l : Label) : Bool := (g.get i).hasLabel l

/-- `setLabel(op, label)`: attach a (unit) label attribute; re-setting an
already present label is a no-op. -/
def Op.setLabel (o : Op) (l : Label) : Op :=
  if l ∈ o.labels then o else { o with labels := l :: o.labels }

/-- `removeLabel(op, label)`. -/
def Op.removeLabel (o : Op) (l : Label) : Op :=
  { o with labels := o.labels.filter (fun x => decide (x ≠ l)) }

def setLabelG (g : Graph) (i : Nat) (l : Label) : Graph :=
  ⟨g.ops.set i ((g.get i).setLabel l)⟩

def isMapOp (o : Op) : Bool :=
  match o.kind with
  | OpKind.map _ => true
  | _ => false

/-- `isa<scf::ForallOp, scf::ForOp>(op)`. -/
def isLoopKind (k : OpKind) : Bool :=
  match k with
  | OpKind.scfForall => true
  | OpKind.scfFor => true
  | _ => false

/-- The fusibility predicate `fuseFilterFn` of `TileMapPattern::matchAndRewrite`:
degenerate collapse/expand reshapes, and `linalg.broadcast`, `linalg.fill`,
`linalg.map`. -/
def fuseFilterFn (o : Op) : Bool :=
  match o.kind with
  | OpKind.collapseShape d => d
  | OpKind.expandShape d => d
  | OpKind.broadcast => true
  | OpKind.fill => true
  | OpKind.map _ => true
  | _ => false

/-- The loop body of `TileMapPattern::findRootMap`: while the current op
satisfies the fusibility predicate, collect its users; stop if their number
is not exactly one, otherwise advance to the single user and, when that user
is a `linalg.map`, record it as the new root candidate.  The C++ loop
terminates because data-flow graphs are acyclic; the embedding bounds the
walk by explicit fuel. -/
def findRootMapAux (g : Graph) : Nat → Nat → Nat → Nat
  | 0, _, rootMap => rootMap
  | fuel + 1, curOp, rootMap =>
    if fuseFilterFn (g.get curOp) then
      match (g.get curOp).users with
      | [u] => findRootMapAux g fuel u (if isMapOp (g.get u) then u else rootMap)
      | _ => rootMap
    else rootMap

/-- `TileMapPattern::findRootMap`: find the root of the fusion cluster,
starting with the matched map itself as root candidate. -/
def findRootMap (g : Graph) (fuel : Nat) (op : Nat) : Nat :=
  findRootMapAux g fuel op op

/-- The tile-size computation function installed by
`TileMapPattern::matchAndRewrite`: `numLoops` entries, all 1, then the last
entry overwritten with `innerDimTileSize` when the vector is non-empty. -/
def tileSizes (innerDimTileSize : Int) (numLoops : Nat) : List Int :=
  let tiles : List Int := List.replicate numLoops 1
  if tiles.isEmpty then tiles
  else tiles.dropLast ++ [innerDimTileSize]

/-- Modelled from the spec: the external collaborators of the pattern and
the pass, which live outside this translation unit.
* `tileFuse` is `tileUsingSCFForallOpAndFuseGreedily`; it consumes the
  tile-size policy and the root op and either fails — "propagated as a
  non-match (no mutation)" — or returns the rewritten graph together with
  the id of the tiled loop.
* `peel` is `peelAllLoops`; it splits a tiled loop and returns the rewritten
  graph together with the peeling result (the ids of the remainder loops).
* `scalarize` is `tilePeeledOpsToScalars`; it re-tiles ops in the peeled
  remainder loops to size 1 and can fail.
* `collapseDims` is the auxiliary pattern registered by
  `populateCollapseForallOpDimensionsPattern`; per the rewrite-pattern
  contract it either fails without mutation or returns a rewritten graph. -/
structure Drivers where
  tileFuse : (Nat → List Int) → Graph → Nat → Option (Graph × Nat)
  peel : Graph → Nat → Graph × List Nat
  scalarize : Graph → List Nat → Option Graph
  collapseDims : Graph → Nat → Option Graph

/-- The tail of `TileMapPattern::matchAndRewrite` after tiling-and-fusion
succeeded with tiled loop `loop` in graph `g1`: peel all loops, label the
tiled loop `perfectly-tiled-loop`, then tile the ops in the peeled loops to
scalars; the pattern result is the scalarization result, and on its failure
the peeling and labelling mutations are already part of the graph. -/
def tileSuccessStep (d : Drivers) (loop : Nat) (g1 : Graph) : Bool × Graph :=
  match d.scalarize
      (setLabelG (d.peel g1 loop).1 loop kPerfectlyTiledLoopLabel)
      (d.peel g1 loop).2 with
  | none => (false, setLabelG (d.peel g1 loop).1 loop kPerfectlyTiledLoopLabel)
  | some g3 => (true, g3)

/-- `TileMapPattern::matchAndRewrite` after the transformed-label and
parent-loop guards: find the root of the fusion cluster, skip if it is
already labelled `transformed`, otherwise run tiling-and-fusion with the
tile-size policy and continue with `tileSuccessStep`. -/
def afterParentCheck (d : Drivers) (innerDimTileSize : Int) (g : Graph)
    (opId : Nat) : Bool × Graph :=
  if hasLabel g (findRootMap g g.ops.length opId) kTransformedLabel then
    (false, g)
  else
    match d.tileFuse (tileSizes innerDimTileSize) g
        (findRootMap g g.ops.length opId) with
    | none => (false, g)
    | some (g1, loop) => tileSuccessStep d loop g1

/-- `TileMapPattern::matchAndRewrite`: the pattern only applies to
`linalg.map` ops; skip ops labelled `transformed` and ops whose parent is an
`scf.forall` or `scf.for`; then find the fusion root and rewrite.  The
result is the match outcome together with the graph afterwards (a failing
match is not rolled back by the driver, so mutations made before a failure
persist). -/
def matchAndRewrite (d : Drivers) (innerDimTileSize : Int) (g : Graph)
    (opId : Nat) : Bool × Graph :=
  if isMapOp (g.get opId) = false then (false, g)
  else if hasLabel g opId kTransformedLabel then (false, g)
  else if isLoopKind (g.get (g.get opId).parent).kind then (false, g)
  else afterParentCheck d innerDimTileSize g opId

/-- Modelled from the spec: the greedy driver tries the registered patterns
on one op — the tile pattern, then the auxiliary collapse pattern. -/
def applyPatterns (d : Drivers) (innerDimTileSize : Int) (g : Graph)
    (opId : Nat) : Bool × Graph :=
  match matchAndRewrite d innerDimTileSize g opId with
  | (true, g1) => (true, g1)
  | (false, g1) =>
    match d.collapseDims g1 opId with
    | some g2 => (true, g2)
    | none => (false, g1)

/-- Modelled from the spec: one scan of the greedy rewriter over a worklist
of op ids, threading the graph through every attempt and reporting whether
any pattern application succeeded. -/
def scanOnce (d : Drivers) (innerDimTileSize : Int) :
    Graph → List Nat → Graph × Bool
  | g, [] => (g, false)
  | g, i :: rest =>
    match applyPatterns d innerDimTileSize g i with
    | (true, g1) => ((scanOnce d innerDimTileSize g1 rest).1, true)
    | (false, g1) => scanOnce d innerDimTileSize g1 rest

/-- Modelled from the spec: `applyPatternsAndFoldGreedily` — repeatedly scan
for applicable rewrites until a scan changes nothing (convergence) or the
iteration bound is exhausted; exceeding the bound is reported as failure,
with the already committed rewrites kept in the graph.  `fuel` is the
number of further scans allowed after the current one. -/
def applyGreedily (d : Drivers) (innerDimTileSize : Int) :
    Nat → Graph → Bool × Graph
  | 0, g =>
    if (scanOnce d innerDimTileSize g (List.range g.ops.length)).2 = false then
      (true, (scanOnce d innerDimTileSize g (List.range g.ops.length)).1)
    else
      (false, (scanOnce d innerDimTileSize g (List.range g.ops.length)).1)
  | f + 1, g =>
    if (scanOnce d innerDimTileSize g (List.range g.ops.length)).2 = false then
      (true, (scanOnce d innerDimTileSize g (List.range g.ops.length)).1)
    else
      applyGreedily d innerDimTileSize f
        (scanOnce d innerDimTileSize g (List.range g.ops.length)).1

/-- The body of the final cleanup walk: only `linalg.map` ops have their
`transformed` label removed. -/
def stripOp (o : Op) : Op :=
  if isMapOp o then o.removeLabel kTransformedLabel else o

/-- The final cleanup walk of `TransformMapForCpuPass::runOnOperation`:
`f.walk([](linalg::MapOp op) { removeLabel(op, kTransformedLabel); })` —
it visits only `linalg.map` ops. -/
def stripTransformedFromMaps (g : Graph) : Graph :=
  ⟨g.ops.map stripOp⟩

/-- `TransformMapForCpuPass::runOnOperation`: run the greedy rewriter with
the two patterns; on non-convergence signal pass failure and return at once
(no cleanup walk); on success strip the `transformed` label from every
`linalg.map` op. -/
def runPass (d : Drivers) (tileSize : Int) (fuel : Nat) (g : Graph) :
    Bool × Graph :=
  if (applyGreedily d tileSize fuel g).1 = false then
    applyGreedily d tileSize fuel g
  else
    (true, stripTransformedFromMaps (applyGreedily d tileSize fuel g).2)

/-! Concrete instances used to evaluate the development on small inputs. -/

/-- The enclosing `func.func` op (its own parent, no users). -/
def opFunc : Op := ⟨OpKind.func, [], [], 0⟩

/-- Drivers on which every collaborator fails to apply. -/
def dNone : Drivers :=
  ⟨fun _ _ _ => none, fun g _ => (g, []), fun _ _ => none, fun _ _ => none⟩

/-- A function holding a single rank-1 map already labelled `transformed`. -/
def gMapLabeled : Graph := ⟨[opFunc, ⟨OpKind.map 1, [Label.transformed], [], 0⟩]⟩

/-- A function holding a single unlabelled rank-1 map. -/
def gMapPlain : Graph := ⟨[opFunc, ⟨OpKind.map 1, [], [], 0⟩]⟩

/-- The graph a successful tiling-and-fusion step produces from `gMapPlain`:
the map is cloned into a new `scf.forall` loop (id 2) and labelled
`transformed`. -/
def exGTiled : Graph :=
  ⟨[opFunc, ⟨OpKind.map 1, [Label.transformed], [], 2⟩, ⟨OpKind.scfForall, [], [], 0⟩]⟩

/-- Drivers whose tiling step succeeds with `exGTiled` (tiled loop id 2),
whose peeling step creates no remainder loops, and whose remainder
scalarization step fails. -/
def exDriversScalFail : Drivers :=
  ⟨fun _ _ _ => some (exGTiled, 2), fun g _ => (g, []), fun _ _ => none,
   fun _ _ => none⟩

/-- Drivers whose tiling step succeeds with `exGTiled` and whose remainder
scalarization step succeeds without further changes. -/
def exDriversScalOk : Drivers :=
  ⟨fun _ _ _ => some (exGTiled, 2), fun g _ => (g, []), fun g _ => some g,
   fun _ _ => none⟩

/-- A function holding an `scf.forall` loop labelled `transformed` and no
map op at all. -/
def gLoopLabeled : Graph := ⟨[opFunc, ⟨OpKind.scfForall, [Label.transformed], [], 0⟩]⟩

/-- A function with an unlabelled map (id 1), an `scf.forall` (id 2) and a
map labelled `transformed` (id 3). -/
def gFailInput : Graph :=
  ⟨[opFunc, ⟨OpKind.map 1, [], [], 0⟩, ⟨OpKind.scfForall, [], [], 0⟩,
    ⟨OpKind.map 1, [Label.transformed], [], 0⟩]⟩

/-- Drivers whose tiling step returns the graph unchanged with tiled loop
id 2 and whose scalarization succeeds: the tile pattern then applies anew on
every scan, so the greedy rewriter never converges. -/
def dLoopForever : Drivers :=
  ⟨fun _ g _ => some (g, 2), fun g _ => (g, []), fun g _ => some g,
   fun _ _ => none⟩

/-- A map (id 1) whose output is consumed by the two maps with ids 2, 3. -/
def gFanOut : Graph :=
  ⟨[opFunc, ⟨OpKind.map 1, [], [2, 3], 0⟩, ⟨OpKind.map 1, [], [], 0⟩,
    ⟨OpKind.map 1, [], [], 0⟩]⟩

/-- A map (id 2) whose direct parent is a non-loop op (id 1) that itself
sits inside an `scf.forall` (id 0). -/
def gNested : Graph :=
  ⟨[⟨OpKind.scfForall, [], [], 0⟩, ⟨OpKind.other, [], [], 0⟩,
    ⟨OpKind.map 1, [], [], 1⟩]⟩

/-! ## Helper lemmas -/

theorem findRootMapAux_stop (g : Graph) (f cur root : Nat)
    (h : fuseFilterFn (g.get cur) = false ∨ (g.get cur).users.length ≠ 1) :
    findRootMapAux g (f + 1) cur root = root := by
  rcases h with hf | hlen
  · simp [findRootMapAux, hf]
  · by_cases hf : fuseFilterFn (g.get cur) = true
    · simp only [findRootMapAux, hf, if_true]
      cases hu : (g.get cur).users with
      | nil => rfl
      | cons a t =>
        cases t with
        | nil => exact absurd (by simp [hu]) hlen
        | cons b t2 => rfl
    · simp [findRootMapAux, by simpa using hf]

theorem findRootMapAux_step (g : Graph) (f cur root u : Nat)
    (hf : fuseFilterFn (g.get cur) = true) (hu : (g.get cur).users = [u]) :
    findRootMapAux g (f + 1) cur root =
      findRootMapAux g f u (if isMapOp (g.get u) then u else root) := by
  simp only [findRootMapAux, hf, if_true, hu]

theorem findRootMapAux_isMap (g : Graph) (f : Nat) :
    ∀ cur root : Nat, isMapOp (g.get root) = true →
      isMapOp (g.get (findRootMapAux g f cur root)) = true := by
  induction f with
  | zero => intro cur root h; exact h
  | succ f ih =>
    intro cur root h
    by_cases hf : fuseFilterFn (g.get cur) = true
    · cases hu : (g.get cur).users with
      | nil =>
        rw [findRootMapAux_stop g f cur root (Or.inr (by rw [hu]; simp))]
        exact h
      | cons a t =>
        cases t with
        | nil =>
          rw [findRootMapAux_step g f cur root a hf hu]
          by_cases hm : isMapOp (g.get a) = true
          · rw [if_pos hm]; exact ih a a hm
          · rw [if_neg hm]; exact ih a root h
        | cons b t2 =>
          rw [findRootMapAux_stop g f cur root (Or.inr (by rw [hu]; simp))]
          exact h
    · rw [findRootMapAux_stop g f cur root (Or.inl (by simpa using hf))]
      exact h

theorem findRootMap_isMap (g : Graph) (f op : Nat)
    (h : isMapOp (g.get op) = true) :
    isMapOp (g.get (findRootMap g f op)) = true :=
  findRootMapAux_isMap g f op op h

theorem tileSizes_eq (T : Int) (n : Nat) :
    tileSizes T (n + 1) = List.replicate n 1 ++ [T] := by
  unfold tileSizes
  rw [List.replicate_succ']
  simp

theorem Op.hasLabel_setLabel (o : Op) (l : Label) :
    (o.setLabel l).hasLabel l = true := by
  unfold Op.setLabel Op.hasLabel
  by_cases h : l ∈ o.labels
  · rw [if_pos h]; simpa using h
  · rw [if_neg h]; simp

theorem hasLabel_setLabelG (g : Graph) (i : Nat) (l : Label)
    (h : i < g.ops.length) :
    hasLabel (setLabelG g i l) i l = true := by
  unfold hasLabel setLabelG Graph.get
  rw [List.getD_eq_getElem?_getD, List.getElem?_set_self h]
  exact Op.hasLabel_setLabel _ _

theorem Op.removeLabel_kind (o : Op) (l : Label) :
    (o.removeLabel l).kind = o.kind := rfl

theorem Op.hasLabel_removeLabel (o : Op) (l : Label) :
    (o.removeLabel l).hasLabel l = false := by
  simp [Op.removeLabel, Op.hasLabel]

theorem Op.removeLabel_idem (o : Op) (l : Label) :
    (o.removeLabel l).removeLabel l = o.removeLabel l := by
  simp [Op.removeLabel, List.filter_filter]

theorem isMapOp_stripOp (o : Op) : isMapOp (stripOp o) = isMapOp o := by
  unfold stripOp
  by_cases h : isMapOp o = true
  · rw [if_pos h]; exact h.symm ▸ rfl
  · rw [if_neg h]

theorem stripOp_idem (o : Op) : stripOp (stripOp o) = stripOp o := by
  unfold stripOp
  by_cases h : isMapOp o = true
  · rw [if_pos h]
    have h2 : isMapOp (o.removeLabel kTransformedLabel) = true := h
    rw [if_pos h2, Op.removeLabel_idem]
  · rw [if_neg h, if_neg h]

theorem get_strip (g : Graph) (i : Nat) :
    (stripTransformedFromMaps g).get i = stripOp (g.get i) := by
  unfold stripTransformedFromMaps Graph.get
  simp only [List.getD_eq_getElem?_getD, List.getElem?_map]
  cases h : g.ops[i]? with
  | none => simp [stripOp, defaultOp, isMapOp]
  | some o => simp

theorem strip_idem (g : Graph) :
    stripTransformedFromMaps (stripTransformedFromMaps g) =
      stripTransformedFromMaps g := by
  unfold stripTransformedFromMaps
  simp only [List.map_map]
  have h : stripOp ∘ stripOp = stripOp := by
    funext o
    exact stripOp_idem o
  rw [h]

theorem matchAndRewrite_skip (d : Drivers) (T : Int) (g : Graph) (i : Nat)
    (h : hasLabel g i kTransformedLabel = true ∨
         isLoopKind (g.get (g.get i).parent).kind = true ∨
         hasLabel g (findRootMap g g.ops.length i) kTransformedLabel = true) :
    matchAndRewrite d T g i = (false, g) := by
  rcases h with h1 | h2 | h3
  · simp [matchAndRewrite, h1]
  · simp [matchAndRewrite, h2]
  · simp [matchAndRewrite, afterParentCheck, h3]

theorem matchAndRewrite_tileFuse_none (d : Drivers) (T : Int) (g : Graph)
    (i : Nat)
    (htile : d.tileFuse (tileSizes T) g (findRootMap g g.ops.length i) = none) :
    matchAndRewrite d T g i = (false, g) := by
  unfold matchAndRewrite afterParentCheck
  by_cases h0 : isMapOp (g.get i) = false
  · rw [if_pos h0]
  · rw [if_neg h0]
    by_cases h1 : hasLabel g i kTransformedLabel = true
    · rw [if_pos h1]
    · rw [if_neg h1]
      by_cases h2 : isLoopKind (g.get (g.get i).parent).kind = true
      · rw [if_pos h2]
      · rw [if_neg h2]
        by_cases h3 :
            hasLabel g (findRootMap g g.ops.length i) kTransformedLabel = true
        · rw [if_pos h3]
        · rw [if_neg h3, htile]

theorem matchAndRewrite_noop (d : Drivers) (T : Int) (g : Graph)
    (hmaps : ∀ i, isMapOp (g.get i) = true →
      isLoopKind (g.get (g.get i).parent).kind = true ∨
      d.tileFuse (tileSizes T) g (findRootMap g g.ops.length i) = none)
    (i : Nat) : matchAndRewrite d T g i = (false, g) := by
  by_cases hm : isMapOp (g.get i) = true
  · rcases hmaps i hm with hp | ht
    · exact matchAndRewrite_skip d T g i (Or.inr (Or.inl hp))
    · exact matchAndRewrite_tileFuse_none d T g i ht
  · have hm2 : isMapOp (g.get i) = false := by
      revert hm; cases isMapOp (g.get i) <;> simp
    simp [matchAndRewrite, hm2]

theorem scanOnce_noop (d : Drivers) (T : Int) (g : Graph)
    (hmar : ∀ i, matchAndRewrite d T g i = (false, g))
    (haux : ∀ i, d.collapseDims g i = none) :
    ∀ L, scanOnce d T g L = (g, false) := by
  intro L
  induction L with
  | nil => rfl
  | cons a t ih =>
    simp only [scanOnce, applyPatterns, hmar a, haux a]
    exact ih

/-! ## Claims -/

/-- C1: `findRootMap` walks forward through consumers as long as the current
node satisfies the fusibility predicate and has exactly one user, recording
each map node it lands on as the current root candidate, and returns the
last-seen map node as soon as the predicate fails or the user count is not
exactly one; in particular, a node with two or more users is its own root,
and a starting node with no users or failing the predicate is its own
root. -/
theorem findRootMap_spec (g : Graph) (fuel op : Nat) (h : 0 < fuel) :
    (fuseFilterFn (g.get op) = false → findRootMap g fuel op = op) ∧
    ((g.get op).users.length ≠ 1 → findRootMap g fuel op = op) ∧
    (2 ≤ (g.get op).users.length → findRootMap g fuel op = op) ∧
    ((g.get op).users = [] → findRootMap g fuel op = op) ∧
    (∀ u, fuseFilterFn (g.get op) = true → (g.get op).users = [u] →
      findRootMap g fuel op =
        findRootMapAux g (fuel - 1) u (if isMapOp (g.get u) then u else op)) := by
  obtain ⟨f, rfl⟩ : ∃ f, fuel = f + 1 :=
    ⟨fuel - 1, (Nat.succ_pred_eq_of_pos h).symm⟩
  refine ⟨?_, ?_, ?_, ?_, ?_⟩
  · intro hf; exact findRootMapAux_stop g f op op (Or.inl hf)
  · intro hl; exact findRootMapAux_stop g f op op (Or.inr hl)
  · intro hl; exact findRootMapAux_stop g f op op (Or.inr (by omega))
  · intro hu
    exact findRootMapAux_stop g f op op (Or.inr (by rw [hu]; simp))
  · intro u hf hu
    simpa using findRootMapAux_step g f op op u hf hu

/-- C1 witness: in `gFanOut` the starting map (id 1) has two users, so it is
returned as its own root. -/
theorem findRootMap_spec_witness : findRootMap gFanOut 3 1 = 1 :=
  (findRootMap_spec gFanOut 3 1 (by decide)).2.2.1 (by decide)

/-- C2: for rank `R` and configured innermost tile size `T`, the tile-size
computation yields exactly `R` entries, all 1 except the last which is `T`
when `R ≥ 1`, and the empty vector at rank 0. -/
theorem tileSizes_spec (T : Int) (R : Nat) :
    (tileSizes T R).length = R ∧ tileSizes T 0 = [] ∧
    (0 < R → tileSizes T R = List.replicate (R - 1) 1 ++ [T]) := by
  refine ⟨?_, rfl, ?_⟩
  · cases R with
    | zero => rfl
    | succ n => rw [tileSizes_eq]; simp
  · intro hR
    obtain ⟨n, rfl⟩ : ∃ n, R = n + 1 :=
      ⟨R - 1, (Nat.succ_pred_eq_of_pos hR).symm⟩
    rw [tileSizes_eq]
    simp

/-- C2 witness: rank 3 with inner size 8 yields `[1, 1, 8]`. -/
theorem tileSizes_spec_witness : tileSizes 8 3 = List.replicate 2 1 ++ [8] :=
  (tileSizes_spec 8 3).2.2 (by decide)

/-- C6: the pattern reports a non-match with no state change when the map is
already labelled `transformed`, when its direct parent is an `scf.forall` or
`scf.for` loop, or when the fusion root found for it is already labelled
`transformed`. -/
theorem tileMapPattern_skips (d : Drivers) (T : Int) (g : Graph) (i : Nat)
    (h : hasLabel g i kTransformedLabel = true ∨
         isLoopKind (g.get (g.get i).parent).kind = true ∨
         hasLabel g (findRootMap g g.ops.length i) kTransformedLabel = true) :
    matchAndRewrite d T g i = (false, g) :=
  matchAndRewrite_skip d T g i h

/-- C6 witness: a map labelled `transformed` is skipped with no state
change. -/
theorem tileMapPattern_skips_witness :
    matchAndRewrite dNone 8 gMapLabeled 1 = (false, gMapLabeled) :=
  tileMapPattern_skips dNone 8 gMapLabeled 1 (Or.inl (by decide))

/-- C10: the already-tiled nesting check inspects only the immediate parent:
with the transformed-label guard passed, the candidate is skipped when its
direct parent is an `scf.forall` or `scf.for`, and otherwise the rewrite
proceeds past this check regardless of what the parent is nested in. -/
theorem parent_check_is_immediate (d : Drivers) (T : Int) (g : Graph)
    (i : Nat)
    (hmap : isMapOp (g.get i) = true)
    (hlab : hasLabel g i kTransformedLabel = false) :
    (isLoopKind (g.get (g.get i).parent).kind = true →
        matchAndRewrite d T g i = (false, g)) ∧
    (isLoopKind (g.get (g.get i).parent).kind = false →
        matchAndRewrite d T g i = afterParentCheck d T g i) := by
  constructor
  · intro hp; simp [matchAndRewrite, hmap, hlab, hp]
  · intro hp; simp [matchAndRewrite, hmap, hlab, hp]

/-- C10 witness: in `gNested` the map (id 2) sits under a non-loop op inside
an `scf.forall`, and the parent check does not skip it. -/
theorem parent_check_is_immediate_witness :
    matchAndRewrite dNone 8 gNested 2 = afterParentCheck dNone 8 gNested 2 :=
  (parent_check_is_immediate dNone 8 gNested 2 (by decide) (by decide)).2
    (by decide)

/-- C3 counterexample: with drivers whose remainder scalarization step
fails, the pattern reports failure on `gMapPlain` yet returns a graph that
differs from the input — the rewrite is not side-effect-free on this
failure. -/
theorem tileMapPattern_scalfail_mutates :
    (matchAndRewrite exDriversScalFail 8 gMapPlain 1).1 = false ∧
    (matchAndRewrite exDriversScalFail 8 gMapPlain 1).2 ≠ gMapPlain := by
  exact ⟨by decide, by decide⟩

/-- C3 amended: the pattern reports success only when tiling-and-fusion and
remainder scalarization both succeed; a tiling-and-fusion failure (or a
guard skip) leaves the graph unmodified, while a scalarization failure
happens after peeling and labelling already mutated the graph. -/
theorem tileMapPattern_failure_semantics (d : Drivers) (T : Int) (g : Graph)
    (i : Nat) :
    (d.tileFuse (tileSizes T) g (findRootMap g g.ops.length i) = none →
      matchAndRewrite d T g i = (false, g)) ∧
    ((matchAndRewrite d T g i).1 = true →
      ∃ g1 loop g3,
        d.tileFuse (tileSizes T) g (findRootMap g g.ops.length i) =
          some (g1, loop) ∧
        d.scalarize
          (setLabelG (d.peel g1 loop).1 loop kPerfectlyTiledLoopLabel)
          (d.peel g1 loop).2 = some g3 ∧
        (matchAndRewrite d T g i).2 = g3) := by
  constructor
  · intro htile
    exact matchAndRewrite_tileFuse_none d T g i htile
  · intro hsucc
    cases h0 : isMapOp (g.get i) with
    | false => simp [matchAndRewrite, h0] at hsucc
    | true =>
      cases h1 : hasLabel g i kTransformedLabel with
      | true => simp [matchAndRewrite, h0, h1] at hsucc
      | false =>
        cases h2 : isLoopKind (g.get (g.get i).parent).kind with
        | true => simp [matchAndRewrite, h0, h1, h2] at hsucc
        | false =>
          cases h3 :
              hasLabel g (findRootMap g g.ops.length i) kTransformedLabel with
          | true =>
            simp [matchAndRewrite, afterParentCheck, h0, h1, h2, h3] at hsucc
          | false =>
            cases htf : d.tileFuse (tileSizes T) g
                (findRootMap g g.ops.length i) with
            | none =>
              simp [matchAndRewrite, afterParentCheck, h0, h1, h2, h3,
                htf] at hsucc
            | some p =>
              obtain ⟨g1, loop⟩ := p
              cases hsc : d.scalarize
                  (setLabelG (d.peel g1 loop).1 loop kPerfectlyTiledLoopLabel)
                  (d.peel g1 loop).2 with
              | none =>
                simp [matchAndRewrite, afterParentCheck, tileSuccessStep,
                  h0, h1, h2, h3, htf, hsc] at hsucc
              | some g3 =>
                refine ⟨g1, loop, g3, rfl, hsc, ?_⟩
                simp [matchAndRewrite, afterParentCheck, tileSuccessStep,
                  h0, h1, h2, h3, htf, hsc]

/-- C3 amended witness: with all-failing drivers the pattern fails on
`gMapPlain` with the graph unmodified. -/
theorem tileMapPattern_failure_semantics_witness :
    matchAndRewrite dNone 8 gMapPlain 1 = (false, gMapPlain) :=
  (tileMapPattern_failure_semantics dNone 8 gMapPlain 1).1 (by decide)

/-- C7: when all guards pass and tiling-and-fusion succeeds with tiled loop
`loop`, the pattern continues with the peeling driver applied to that loop
and sets the `perfectly-tiled-loop` label on it. -/
theorem tiling_success_invokes_peeling (d : Drivers) (T : Int) (g : Graph)
    (i loop : Nat) (g1 : Graph)
    (hmap : isMapOp (g.get i) = true)
    (hlab : hasLabel g i kTransformedLabel = false)
    (hpar : isLoopKind (g.get (g.get i).parent).kind = false)
    (hroot : hasLabel g (findRootMap g g.ops.length i) kTransformedLabel = false)
    (htile : d.tileFuse (tileSizes T) g (findRootMap g g.ops.length i) =
      some (g1, loop))
    (hrange : loop < (d.peel g1 loop).1.ops.length) :
    matchAndRewrite d T g i = tileSuccessStep d loop g1 ∧
    hasLabel (setLabelG (d.peel g1 loop).1 loop kPerfectlyTiledLoopLabel)
      loop kPerfectlyTiledLoopLabel = true := by
  constructor
  · simp [matchAndRewrite, afterParentCheck, hmap, hlab, hpar, hroot, htile]
  · exact hasLabel_setLabelG _ _ _ hrange

/-- C7 witness. -/
theorem tiling_success_invokes_peeling_witness :
    matchAndRewrite exDriversScalFail 8 gMapPlain 1 =
      tileSuccessStep exDriversScalFail 2 exGTiled ∧
    hasLabel (setLabelG (exDriversScalFail.peel exGTiled 2).1 2
      kPerfectlyTiledLoopLabel) 2 kPerfectlyTiledLoopLabel = true :=
  tiling_success_invokes_peeling exDriversScalFail 8 gMapPlain 1 2 exGTiled
    (by decide) (by decide) (by decide) (by decide) (by decide) (by decide)

/-- C9: when tiling-and-fusion succeeds but remainder scalarization fails,
the pattern reports failure while the returned graph already carries the
peeling mutations and the `perfectly-tiled-loop` label on the tiled
loop. -/
theorem scalarization_failure_keeps_label (d : Drivers) (T : Int) (g : Graph)
    (i loop : Nat) (g1 : Graph)
    (hmap : isMapOp (g.get i) = true)
    (hlab : hasLabel g i kTransformedLabel = false)
    (hpar : isLoopKind (g.get (g.get i).parent).kind = false)
    (hroot : hasLabel g (findRootMap g g.ops.length i) kTransformedLabel = false)
    (htile : d.tileFuse (tileSizes T) g (findRootMap g g.ops.length i) =
      some (g1, loop))
    (hscal : d.scalarize
        (setLabelG (d.peel g1 loop).1 loop kPerfectlyTiledLoopLabel)
        (d.peel g1 loop).2 = none)
    (hrange : loop < (d.peel g1 loop).1.ops.length) :
    matchAndRewrite d T g i =
      (false, setLabelG (d.peel g1 loop).1 loop kPerfectlyTiledLoopLabel) ∧
    hasLabel (matchAndRewrite d T g i).2 loop kPerfectlyTiledLoopLabel
      = true := by
  have h1 : matchAndRewrite d T g i =
      (false, setLabelG (d.peel g1 loop).1 loop kPerfectlyTiledLoopLabel) := by
    simp [matchAndRewrite, afterParentCheck, tileSuccessStep, hmap, hlab,
      hpar, hroot, htile, hscal]
  refine ⟨h1, ?_⟩
  rw [h1]
  exact hasLabel_setLabelG _ _ _ hrange

/-- C9 witness. -/
theorem scalarization_failure_keeps_label_witness :
    matchAndRewrite exDriversScalFail 8 gMapPlain 1 =
      (false, setLabelG (exDriversScalFail.peel exGTiled 2).1 2
        kPerfectlyTiledLoopLabel) ∧
    hasLabel (matchAndRewrite exDriversScalFail 8 gMapPlain 1).2 2
      kPerfectlyTiledLoopLabel = true :=
  scalarization_failure_keeps_label exDriversScalFail 8 gMapPlain 1 2 exGTiled
    (by decide) (by decide) (by decide) (by decide) (by decide) (by decide)
    (by decide)

/-- C4 counterexample: (a) a `transformed` label on an `scf.forall` loop
survives a successful pass, because the cleanup walk visits only
`linalg.map` ops; (b) when the greedy rewriter does not converge the pass
fails and no label at all is stripped — a `transformed` map label
survives. -/
theorem transformed_label_survives_pass :
    ((runPass dNone 8 2 gLoopLabeled).1 = true ∧
      hasLabel (runPass dNone 8 2 gLoopLabeled).2 1 kTransformedLabel = true) ∧
    ((runPass dLoopForever 8 1 gFailInput).1 = false ∧
      hasLabel (runPass dLoopForever 8 1 gFailInput).2 3 kTransformedLabel
        = true) :=
  ⟨⟨by decide, by decide⟩, ⟨by decide, by decide⟩⟩

/-- C4 amended: after the pass returns successfully, no `linalg.map` op
carries the `transformed` label; the cleanup walk visits only map ops, so
labels on other ops (e.g. loops) are not stripped, and nothing is stripped
when the pass fails. -/
theorem pass_strips_transformed_from_maps (d : Drivers) (T : Int)
    (fuel : Nat) (g : Graph) (i : Nat)
    (hok : (runPass d T fuel g).1 = true)
    (hm : isMapOp ((runPass d T fuel g).2.get i) = true) :
    hasLabel (runPass d T fuel g).2 i kTransformedLabel = false := by
  by_cases hf : (applyGreedily d T fuel g).1 = false
  · rw [show runPass d T fuel g = applyGreedily d T fuel g from by
      simp [runPass, hf]] at hok
    rw [hok] at hf
    simp at hf
  · rw [show runPass d T fuel g =
        (true, stripTransformedFromMaps (applyGreedily d T fuel g).2) from by
      simp [runPass, hf]] at hm ⊢
    unfold hasLabel
    rw [get_strip] at hm ⊢
    rw [isMapOp_stripOp] at hm
    unfold stripOp
    rw [if_pos hm]
    exact Op.hasLabel_removeLabel _ _

/-- C4 amended witness: the labelled map of `gMapLabeled` is unlabelled in
the output of a successful pass. -/
theorem pass_strips_transformed_from_maps_witness :
    hasLabel (runPass dNone 8 2 gMapLabeled).2 1 kTransformedLabel = false :=
  pass_strips_transformed_from_maps dNone 8 2 gMapLabeled 1 (by decide)
    (by decide)

/-- C8: if the greedy rewriter exhausts its iteration bound without
converging, the pass as a whole fails, the cleanup walk is skipped, and the
returned graph is the result of the committed rewrite scans (the last scan
did commit changes) — no implicit rollback. -/
theorem greedy_nonconvergence_fails_pass (d : Drivers) (T : Int)
    (fuel : Nat) (g g1 : Graph)
    (h : applyGreedily d T fuel g = (false, g1)) :
    runPass d T fuel g = (false, g1) ∧
    ∃ g0, scanOnce d T g0 (List.range g0.ops.length) = (g1, true) := by
  constructor
  · have hf : (applyGreedily d T fuel g).1 = false := by rw [h]
    simp [runPass, hf, h]
  · induction fuel generalizing g with
    | zero =>
      unfold applyGreedily at h
      by_cases hs : (scanOnce d T g (List.range g.ops.length)).2 = false
      · rw [if_pos hs] at h
        exact absurd h (by simp)
      · rw [if_neg hs] at h
        have hs2 : (scanOnce d T g (List.range g.ops.length)).2 = true := by
          revert hs; cases (scanOnce d T g (List.range g.ops.length)).2 <;> simp
        have hfst : (scanOnce d T g (List.range g.ops.length)).1 = g1 := by
          have h2 := congrArg Prod.snd h
          simpa using h2
        exact ⟨g, by rw [← hfst, ← hs2]⟩
    | succ f ih =>
      unfold applyGreedily at h
      by_cases hs : (scanOnce d T g (List.range g.ops.length)).2 = false
      · rw [if_pos hs] at h
        exact absurd h (by simp)
      · rw [if_neg hs] at h
        exact ih _ h

/-- C8 witness: with drivers that rewrite the same map on every scan, the
bounded rewriter fails and the pass returns failure with the committed
mutations (the `perfectly-tiled-loop` label) still in the graph. -/
theorem greedy_nonconvergence_fails_pass_witness :
    runPass dLoopForever 8 1 gFailInput =
      (false, setLabelG gFailInput 2 kPerfectlyTiledLoopLabel) :=
  (greedy_nonconvergence_fails_pass dLoopForever 8 1 gFailInput
    (setLabelG gFailInput 2 kPerfectlyTiledLoopLabel) (by decide)).1

/-- C5 counterexample: running the pass twice is not the same as running it
once.  `gMapLabeled` holds a map pre-labelled `transformed`: the first run
skips it and strips the label; the second run then tiles it, so the outputs
differ. -/
theorem pass_not_idempotent :
    (runPass exDriversScalOk 8 4 gMapLabeled).1 = true ∧
    runPass exDriversScalOk 8 4 (runPass exDriversScalOk 8 4 gMapLabeled).2 ≠
      runPass exDriversScalOk 8 4 gMapLabeled :=
  ⟨by decide, by decide⟩

/-- C5 amended: after a successful run producing `g1`, a second run
performs no rewrites and returns `g1` unchanged, provided every map op of
`g1` is either directly inside a loop or has a fusion root on which
tiling-and-fusion fails, and the auxiliary collapse pattern applies
nowhere — stripping the `transformed` labels can otherwise re-enable
matches that the first run had skipped. -/
theorem pass_noop_after_success (d : Drivers) (T : Int) (f f2 : Nat)
    (g g1 : Graph)
    (h1 : runPass d T f g = (true, g1))
    (hmaps : ∀ i, isMapOp (g1.get i) = true →
      isLoopKind (g1.get (g1.get i).parent).kind = true ∨
      d.tileFuse (tileSizes T) g1 (findRootMap g1 g1.ops.length i) = none)
    (haux : ∀ i, d.collapseDims g1 i = none) :
    runPass d T f2 g1 = (true, g1) := by
  have hstrip : stripTransformedFromMaps g1 = g1 := by
    by_cases hf : (applyGreedily d T f g).1 = false
    · rw [show runPass d T f g = applyGreedily d T f g from by
        simp [runPass, hf]] at h1
      rw [h1] at hf
      simp at hf
    · rw [show runPass d T f g =
          (true, stripTransformedFromMaps (applyGreedily d T f g).2) from by
        simp [runPass, hf]] at h1
      have h2 : stripTransformedFromMaps (applyGreedily d T f g).2 = g1 := by
        have h3 := congrArg Prod.snd h1
        simpa using h3
      rw [← h2, strip_idem]
  have hscan : ∀ L, scanOnce d T g1 L = (g1, false) :=
    scanOnce_noop d T g1 (matchAndRewrite_noop d T g1 hmaps) haux
  have hgr : applyGreedily d T f2 g1 = (true, g1) := by
    cases f2 with
    | zero => simp [applyGreedily, hscan]
    | succ f3 => simp [applyGreedily, hscan]
  simp [runPass, hgr, hstrip]

/-- C5 amended witness: with all-failing drivers a successful run on
`gMapLabeled` yields `gMapPlain`, and a second run is a no-op. -/
theorem pass_noop_after_success_witness :
    runPass dNone 8 2 gMapPlain = (true, gMapPlain) :=
  pass_noop_after_success dNone 8 2 2 gMapLabeled gMapPlain (by decide)
    (fun _ _ => Or.inr rfl) (fun _ => rfl)

end GmlSt
